import Mathlib

/-!
Verification of a git-automation CLI ("my-cli").

The development shallowly embeds the TypeScript sources:
  * `src/packages/cli/src/lib/config.ts`  (config store)
  * the AI provider client (`generateCommitMessage` and the four
    `generateWith…` functions)
  * the git helper module (`hasRemote`, `getCurrentBranch`, …)
  * the `push` and `delete` command actions of the CLI entry point.

External effects (HTTP responses, subprocess stdout, interactive answers)
are passed in explicitly as data; the embedded functions are the pure
decision logic of the source, translated clause by clause.
-/

set_option maxHeartbeats 1000000

/-- JavaScript-style whitespace test for the characters that matter here
(the source only ever trims ordinary ASCII whitespace). -/
def isWsChar (c : Char) : Bool :=
  c = ' ' || c = '\n' || c = '\t' || c = '\r'

/-- Trim whitespace from both ends of a character list. -/
def trimL (l : List Char) : List Char :=
  ((l.dropWhile isWsChar).reverse.dropWhile isWsChar).reverse

/-- Model of JavaScript `String.prototype.trim` on the strings this
program manipulates. -/
def jsTrim (s : String) : String :=
  String.mk (trimL s.data)

/-- Boolean test: does character list `s` start with pattern `pat`?
Mirrors the anchored comparison a JS regex/startsWith performs. -/
def startsWithL : List Char → List Char → Bool
  | [], _ => true
  | _ :: _, [] => false
  | p :: ps, c :: cs => p == c && startsWithL ps cs

/-- Boolean substring test, mirroring JavaScript
`hay.includes(needle)`: scan every suffix of `hay` for `needle`
at its head. -/
def includesL : List Char → List Char → Bool
  | [], needle => startsWithL needle []
  | c :: cs, needle => startsWithL needle (c :: cs) || includesL cs needle

/-- String-level wrapper for `includesL`, the model of
JavaScript `hay.includes(needle)`. -/
def includesStr (hay needle : String) : Bool :=
  includesL hay.data needle.data

/-! ## JSON values and optional chaining

The provider responses are JSON documents; the source reads them with
optional chaining (`response.data?.candidates?.[0]?…`). -/

/-- JSON values as delivered by axios (`response.data`). -/
inductive Json where
  | null : Json
  | bool (b : Bool) : Json
  | num (n : Int) : Json
  | str (s : String) : Json
  | arr (items : List Json) : Json
  | obj (fields : List (String × Json)) : Json

/-- Optional-chaining field access `v?.k`: a field lookup on anything
that is not an object yields `none` (JS `undefined`). -/
def Json.getF : Json → String → Option Json
  | .obj fs, k => fs.lookup k
  | _, _ => none

/-- Optional-chaining index access `v?.[i]`. -/
def Json.idx : Json → Nat → Option Json
  | .arr xs, i => xs.get? i
  | _, _ => none

/-- JavaScript falsiness of the value found at a path (`!text`):
`undefined`, `null`, `false`, `0` and `""` are falsy. -/
def jsFalsyVal : Json → Bool
  | .null => true
  | .bool b => !b
  | .num n => n == 0
  | .str s => s == ""
  | .arr _ => false
  | .obj _ => false

/-- Falsiness of an optionally-present value: an absent path
(`undefined`) is falsy. -/
def jsFalsyOpt : Option Json → Bool
  | none => true
  | some v => jsFalsyVal v

/-! ## AI provider client (`generateCommitMessage`) -/

/-- The four supported AI providers (`AiProvider` in `config.ts`). -/
inductive AiProvider where
  | gemini : AiProvider
  | openai : AiProvider
  | anthropic : AiProvider
  | github : AiProvider
deriving DecidableEq, Repr

/-- Outcome of the single axios POST a provider call performs.
`success` is a 2xx response carrying the JSON body; `httpError` is an
axios error that has a `response` (carrying its HTTP status and the
axios `error.message`); `networkError` is an axios error without a
response (transport failure); `otherError` is a non-axios exception. -/
inductive HttpOutcome where
  | success (body : Json) : HttpOutcome
  | httpError (status : Nat) (message : String) : HttpOutcome
  | networkError (message : String) : HttpOutcome
  | otherError (message : String) : HttpOutcome

/-- Errors thrown by the provider client, tagged with the taxonomy of
spec §7 and carrying the exact message string the source builds. -/
inductive AiError where
  | invalidCredentials (msg : String) : AiError
  | rateLimited (msg : String) : AiError
  | providerError (msg : String) : AiError
  | emptyResponse (msg : String) : AiError
  | unclassified (msg : String) : AiError
deriving DecidableEq, Repr

/-- Error-classification tags (the taxonomy names of spec §7). -/
inductive ErrClass where
  | invalidCredentials : ErrClass
  | rateLimited : ErrClass
  | providerError : ErrClass
  | emptyResponse : ErrClass
  | unclassified : ErrClass
deriving DecidableEq, Repr

/-- Classification tag of an error. -/
def AiError.classOf : AiError → ErrClass
  | .invalidCredentials _ => .invalidCredentials
  | .rateLimited _ => .rateLimited
  | .providerError _ => .providerError
  | .emptyResponse _ => .emptyResponse
  | .unclassified _ => .unclassified

/-- Classification of a provider-client result: `none` on success. -/
def errClassOf : Except AiError String → Option ErrClass
  | .error e => some e.classOf
  | .ok _ => none

/-- Response text path for Gemini:
`response.data?.candidates?.[0]?.content?.parts?.[0]?.text`. -/
def geminiText (body : Json) : Option Json :=
  ((((body.getF "candidates").bind (Json.idx · 0)).bind
      (Json.getF · "content")).bind (Json.getF · "parts")).bind
      (Json.idx · 0) |>.bind (Json.getF · "text")

/-- Response text path for OpenAI:
`response.data?.choices?.[0]?.message?.content`. -/
def openaiText (body : Json) : Option Json :=
  (((body.getF "choices").bind (Json.idx · 0)).bind
      (Json.getF · "message")).bind (Json.getF · "content")

/-- Response text path for Anthropic:
`response.data?.content?.[0]?.text`. -/
def anthropicText (body : Json) : Option Json :=
  ((body.getF "content").bind (Json.idx · 0)).bind (Json.getF · "text")

/-- Response text path for the GitHub Models API:
`response.data?.choices?.[0]?.message?.content`. -/
def githubText (body : Json) : Option Json :=
  (((body.getF "choices").bind (Json.idx · 0)).bind
      (Json.getF · "message")).bind (Json.getF · "content")

/-- The text value each provider extracts from a successful response. -/
def pathVal : AiProvider → Json → Option Json
  | .gemini, body => geminiText body
  | .openai, body => openaiText body
  | .anthropic, body => anthropicText body
  | .github, body => githubText body

/-- Shared tail of every `generateWith…` success branch:
`if (!text) throw new Error('Empty response from …'); return text.trim()`.
A falsy value (absent, `null`, `false`, `0`, `""`) raises the provider's
empty-response error; a truthy non-string would crash in `.trim()` with a
TypeError that the catch rethrows unclassified. -/
def textResult (emptyMsg : String) (v : Option Json) : Except AiError String :=
  match v with
  | some (.str t) =>
      if t = "" then .error (.emptyResponse emptyMsg) else .ok (jsTrim t)
  | some w =>
      if jsFalsyVal w then .error (.emptyResponse emptyMsg)
      else .error (.unclassified "TypeError: text.trim is not a function")
  | none => .error (.emptyResponse emptyMsg)

/-- Gemini provider-error message builder:
`error.response?.status || error.message` (a present status is
truthy, statuses are never 0 in practice). -/
def statusOrMsg (status : Nat) (msg : String) : String :=
  if status ≠ 0 then toString status else msg

/-- Model of `generateWithGemini` (part_002 lines 34-75), with the HTTP
outcome of its single POST passed in. -/
def generateWithGemini (_diff _apiKey : String) (out : HttpOutcome) :
    Except AiError String :=
  match out with
  | .success body => textResult "Empty response from Gemini" (geminiText body)
  | .httpError status msg =>
      if status == 401 || status == 403 then
        .error (.invalidCredentials
          "Invalid Gemini API key. Please run setup again.")
      else if status == 429 then
        .error (.rateLimited
          "Gemini API rate limit exceeded. Please wait a moment and try again.")
      else
        .error (.providerError ("Gemini API error: " ++ statusOrMsg status msg))
  | .networkError msg =>
      .error (.providerError ("Gemini API error: " ++ msg))
  | .otherError msg => .error (.unclassified msg)

/-- Model of `generateWithOpenAI` (part_002 lines 80-123). -/
def generateWithOpenAI (_diff _apiKey : String) (out : HttpOutcome) :
    Except AiError String :=
  match out with
  | .success body => textResult "Empty response from OpenAI" (openaiText body)
  | .httpError status msg =>
      if status == 401 then
        .error (.invalidCredentials
          "Invalid OpenAI API key. Please run setup again.")
      else
        .error (.providerError ("OpenAI API error: " ++ msg))
  | .networkError msg =>
      .error (.providerError ("OpenAI API error: " ++ msg))
  | .otherError msg => .error (.unclassified msg)

/-- Model of `generateWithAnthropic` (part_002 lines 128-172). -/
def generateWithAnthropic (_diff _apiKey : String) (out : HttpOutcome) :
    Except AiError String :=
  match out with
  | .success body =>
      textResult "Empty response from Anthropic" (anthropicText body)
  | .httpError status msg =>
      if status == 401 then
        .error (.invalidCredentials
          "Invalid Anthropic API key. Please run setup again.")
      else
        .error (.providerError ("Anthropic API error: " ++ msg))
  | .networkError msg =>
      .error (.providerError ("Anthropic API error: " ++ msg))
  | .otherError msg => .error (.unclassified msg)

/-- Model of `generateWithGitHub` (part_002 lines 177-220). -/
def generateWithGitHub (_diff _token : String) (out : HttpOutcome) :
    Except AiError String :=
  match out with
  | .success body =>
      textResult "Empty response from GitHub Models" (githubText body)
  | .httpError status msg =>
      if status == 401 then
        .error (.invalidCredentials "Invalid GitHub PAT. Please run setup again.")
      else
        .error (.providerError ("GitHub Models API error: " ++ msg))
  | .networkError msg =>
      .error (.providerError ("GitHub Models API error: " ++ msg))
  | .otherError msg => .error (.unclassified msg)

/-- Model of `generateCommitMessage` (part_002 lines 10-29): dispatch on
the provider. The HTTP outcome of the dispatched call is an explicit
argument. -/
def generateCommitMessage (diff : String) (provider : AiProvider)
    (apiKey : String) (out : HttpOutcome) : Except AiError String :=
  match provider with
  | .gemini => generateWithGemini diff apiKey out
  | .openai => generateWithOpenAI diff apiKey out
  | .anthropic => generateWithAnthropic diff apiKey out
  | .github => generateWithGitHub diff apiKey out

/-! ## Config store (`config.ts`)

The store is a single JSON file. Its observable states: absent file,
unparsable file, or a parsed `Config` document. -/

/-- The `Config` interface of `config.ts`: all fields optional. -/
structure Config where
  aiProvider : Option AiProvider := none
  apiKey : Option String := none
  setupComplete : Option Bool := none
deriving DecidableEq, Repr

/-- State of the config file on disk. -/
inductive FileState where
  | absent : FileState
  | invalid : FileState
  | valid (c : Config) : FileState
deriving DecidableEq, Repr

/-- Model of `getConfig`: a missing or unparsable file reads as the
empty configuration. -/
def getConfigSt : FileState → Config
  | .absent => {}
  | .invalid => {}
  | .valid c => c

/-- Model of `setApiKey(provider, apiKey)`: read-modify-write setting
`aiProvider`, `apiKey` and `setupComplete := true`, then saving the
whole document. Returns the new file state. -/
def setApiKeySt (provider : AiProvider) (apiKey : String)
    (st : FileState) : FileState :=
  .valid { getConfigSt st with
            aiProvider := some provider
            apiKey := some apiKey
            setupComplete := some true }

/-- Model of `clearConfig`: delete the file when it exists; report
whether anything was deleted. -/
def clearConfigSt : FileState → FileState × Bool
  | .absent => (.absent, false)
  | .invalid => (.absent, true)
  | .valid _ => (.absent, true)

/-- JavaScript truthiness of an optional string (`!!s`): present and
non-empty. -/
def strOptTruthy : Option String → Bool
  | none => false
  | some s => !(s == "")

/-- Model of `isSetupComplete`:
`config.setupComplete === true && !!config.apiKey && !!config.aiProvider`. -/
def isSetupCompleteB (st : FileState) : Bool :=
  let c := getConfigSt st
  (c.setupComplete == some true) && strOptTruthy c.apiKey && c.aiProvider.isSome

/-! ## Git helper decision logic (`git.ts`) -/

/-- Model of `hasRemote`, applied to the result of `git remote`:
`stdout.includes('origin')`, with a failed subprocess read as `false`. -/
def hasRemoteOf : Option String → Bool
  | none => false
  | some stdout => includesStr stdout "origin"

/-- Model of `hasChanges`, applied to `git status --porcelain` output:
`stdout.trim().length > 0`. -/
def hasChangesOf (stdout : String) : Bool :=
  !(jsTrim stdout == "")

/-- Model of `getCurrentBranch`, applied to
`git branch --show-current` output: `stdout.trim() || 'main'`. -/
def getCurrentBranch (stdout : String) : String :=
  if jsTrim stdout = "" then "main" else jsTrim stdout

/-! ## Remote URL parsing (delete command, part_004 lines 508-524)

`remoteUrl.match(/github\x2ecom[:\x2f](.+?)(?:\x2egit)?$/)` followed by
`repoMatch[1].replace('.git', '')`. The regex finds the leftmost
occurrence of `github.com` followed by `:` or `/`; the lazy group then
captures the shortest non-empty tail such that the remainder is exactly
`.git` or empty — i.e. the tail with one final `.git` stripped when the
tail is longer than `.git` itself. `String.prototype.replace` with a
string pattern replaces only the first occurrence. -/

/-- Capture of the lazy group `(.+?)(?:\x2egit)?$` on the text after
`github.com[:/]`: strip a final `.git` when something non-empty
precedes it. -/
def lazyCapture (u : List Char) : List Char :=
  if u.length > 4 && startsWithL (".git".data) (u.drop (u.length - 4)) then
    u.take (u.length - 4)
  else u

/-- Attempt the regex match anchored at the head of `s`: `s` must start
with `github.com`, followed by `:` or `/`, followed by a non-empty tail. -/
def captureHere (s : List Char) : Option (List Char) :=
  if startsWithL ("github.com".data) s then
    match s.drop ("github.com".data).length with
    | [] => none
    | d :: u =>
        if d == ':' || d == '/' then
          match u with
          | [] => none
          | _ :: _ => some (lazyCapture u)
        else none
  else none

/-- Leftmost regex match over the whole URL: try every start position
in order. -/
def githubCapture : List Char → Option (List Char)
  | [] => none
  | c :: rest =>
      match captureHere (c :: rest) with
      | some cap => some cap
      | none => githubCapture rest

/-- Model of `repoMatch[1].replace('.git', '')`: remove the first
occurrence of `.git`, leave everything else unchanged. -/
def replaceFirstDotGitL : List Char → List Char
  | [] => []
  | c :: t =>
      if startsWithL (".git".data) (c :: t) then (c :: t).drop 4
      else c :: replaceFirstDotGitL t

/-- String-level wrapper for the `.replace('.git', '')` step. -/
def replaceFirstDotGit (s : String) : String :=
  String.mk (replaceFirstDotGitL s.data)

/-- Full repo-name computation of the delete command: regex capture,
then first-occurrence `.git` removal. `none` models the
"Could not determine repository name" abort. -/
def remoteRepoName (url : String) : Option String :=
  (githubCapture url.data).map (fun cap => String.mk (replaceFirstDotGitL cap))

/-! ## Push command orchestration (part_004 lines 148-336)

The action is a straight-line sequence whose branching depends only on
external outcomes: subprocess stdout, HTTP outcomes, interactive
answers, and the config file. Those outcomes are collected in
`PushEnv`; the flow returns an exit code, the ordered list of
state-changing effects it performed, and the final config-file state.
Effectful git/gh actions that the flow never branches on
(`installGhCli`, `loginGh`, `initGitRepo`, `createGitHubRepo`,
`stageAll`, `commit`, `push`) are recorded as trace effects and
modelled as succeeding; their subprocess failure would only reach the
outer catch (exit 1) without further decisions. -/

/-- JavaScript truthiness of `options.message` (commander leaves the
field undefined when `-m` is not given; an explicitly empty string is
falsy too). -/
def msgTruthy : Option String → Bool
  | none => false
  | some s => !(s == "")

/-- State-changing effects the push action can perform, in program
order. -/
inductive Effect where
  | installGh : Effect
  | loginGh : Effect
  | setApiKey (provider : AiProvider) (apiKey : String) : Effect
  | initRepo : Effect
  | createRepo : Effect
  | stageAll : Effect
  | commit (message : String) : Effect
  | push : Effect
deriving DecidableEq, Repr

/-- External outcomes feeding one invocation of the push action. -/
structure PushEnv where
  /-- `options.message` from `-m`/`--message`. -/
  messageOpt : Option String := none
  /-- Config file state at invocation. -/
  config0 : FileState := .absent
  /-- Result of the `gh --version` probe. -/
  ghInstalled : Bool := true
  /-- Answer to the "install GitHub CLI now?" confirm. -/
  confirmInstall : Bool := false
  /-- Result of the `gh auth status` probe. -/
  ghAuthenticated : Bool := true
  /-- Provider selected at the step-3 (re)configuration prompt. -/
  selProvider1 : AiProvider := .gemini
  /-- Key entered at the step-3 (re)configuration prompt. -/
  key1 : String := ""
  /-- Result of the `git rev-parse --is-inside-work-tree` probe. -/
  isRepo : Bool := true
  /-- `git remote` stdout, `none` when the subprocess failed. -/
  remoteResult : Option String := some "origin"
  /-- `git status --porcelain` stdout. -/
  statusStdout : String := ""
  /-- `git diff --cached` stdout. -/
  stagedDiff : String := ""
  /-- Provider selected when step 5 finds provider/key missing. -/
  selProviderMissing : AiProvider := .gemini
  /-- Key entered when step 5 finds provider/key missing. -/
  keyMissing : String := ""
  /-- HTTP outcome of the first AI call. -/
  http1 : HttpOutcome := .networkError "unreachable"
  /-- Answer to the "Reconfigure AI provider?" confirm. -/
  confirmReconfigure : Bool := false
  /-- Provider selected at the reconfigure-and-retry prompt. -/
  selProviderRetry : AiProvider := .gemini
  /-- Key entered at the reconfigure-and-retry prompt. -/
  keyRetry : String := ""
  /-- HTTP outcome of the retried AI call. -/
  http2 : HttpOutcome := .networkError "unreachable"

/-- Result of one invocation of the push action. -/
structure PushResult where
  exitCode : Nat
  trace : List Effect
  finalConfig : FileState
deriving DecidableEq, Repr

/-- Steps 6-7: `commit(commitMessage)` then `push()` and the normal
exit. -/
def finishCommit (st : FileState) (tr : List Effect)
    (message : String) : PushResult :=
  ⟨0, tr ++ [.commit message, .push], st⟩

/-- Step 5 tail once provider and key are resolved: read the staged
diff (`if (!diff)` exits 0), call the AI client, and on failure offer
one reconfigure-and-retry cycle (declining exits 1; a failing retry
throws to the outer catch, exit 1). -/
def aiStep (env : PushEnv) (st : FileState) (tr : List Effect)
    (provider : AiProvider) (apiKey : String) : PushResult :=
  if env.stagedDiff == "" then ⟨0, tr, st⟩
  else
    match generateCommitMessage env.stagedDiff provider apiKey env.http1 with
    | .ok m => finishCommit st tr m
    | .error _ =>
        if env.confirmReconfigure then
          let st2 := setApiKeySt env.selProviderRetry env.keyRetry st
          let tr2 := tr ++ [.setApiKey env.selProviderRetry env.keyRetry]
          match generateCommitMessage env.stagedDiff env.selProviderRetry
              env.keyRetry env.http2 with
          | .ok m => finishCommit st2 tr2 m
          | .error _ => ⟨1, tr2, st2⟩
        else ⟨1, tr, st⟩

/-- Step 5: resolve the commit message. A truthy `-m` value is used
verbatim; otherwise provider and key are read from the config store,
reconfigured if either is falsy, and the AI client is invoked. -/
def afterStage (env : PushEnv) (st : FileState) (tr : List Effect) :
    PushResult :=
  if msgTruthy env.messageOpt then
    finishCommit st tr (env.messageOpt.getD "")
  else
    let provider := (getConfigSt st).aiProvider
    let apiKey := (getConfigSt st).apiKey
    if !provider.isSome || !strOptTruthy apiKey then
      let st1 := setApiKeySt env.selProviderMissing env.keyMissing st
      let tr1 := tr ++ [.setApiKey env.selProviderMissing env.keyMissing]
      aiStep env st1 tr1 env.selProviderMissing env.keyMissing
    else
      aiStep env st tr (provider.getD .gemini) (apiKey.getD "")

/-- Steps "check for changes" and "stage all changes": no changes is a
successful no-op (exit 0); otherwise `stageAll` runs and the flow
continues with the commit message. -/
def changesStep (env : PushEnv) (st : FileState) (tr : List Effect) :
    PushResult :=
  if !hasChangesOf env.statusStdout then ⟨0, tr, st⟩
  else afterStage env st (tr ++ [.stageAll])

/-- Remote check: create a GitHub repository when `hasRemote` is
false. -/
def remoteStep (env : PushEnv) (st : FileState) (tr : List Effect) :
    PushResult :=
  if !hasRemoteOf env.remoteResult then
    changesStep env st (tr ++ [.createRepo])
  else changesStep env st tr

/-- Repository check: initialize when not inside a git work tree. -/
def repoStep (env : PushEnv) (st : FileState) (tr : List Effect) :
    PushResult :=
  if !env.isRepo then remoteStep env st (tr ++ [.initRepo])
  else remoteStep env st tr

/-- Step 3: AI configuration check, skipped entirely under a truthy
`-m`. Reconfigures (and persists immediately) when setup is incomplete
or a fresh GitHub login occurred. -/
def configStep (env : PushEnv) (st : FileState) (tr : List Effect)
    (needsApiReconfigure : Bool) : PushResult :=
  if !msgTruthy env.messageOpt then
    if !isSetupCompleteB st || needsApiReconfigure then
      repoStep env (setApiKeySt env.selProvider1 env.key1 st)
        (tr ++ [.setApiKey env.selProvider1 env.key1])
    else repoStep env st tr
  else repoStep env st tr

/-- The push command action (part_004 lines 157-336): setup gate,
GitHub CLI check, authentication check (setting the fresh-login flag),
then the linear flow. -/
def pushAction (env : PushEnv) : PushResult :=
  if !isSetupCompleteB env.config0 && !msgTruthy env.messageOpt then
    ⟨1, [], env.config0⟩
  else if !env.ghInstalled then
    if env.confirmInstall then ⟨0, [.installGh], env.config0⟩
    else ⟨1, [], env.config0⟩
  else if !env.ghAuthenticated then
    configStep env env.config0 [.loginGh] true
  else
    configStep env env.config0 [] false

/-! ## Remaining definitions: per-provider empty-response messages and
concrete environments used by witnesses. -/

/-- The empty-response error message each provider throws. -/
def emptyMsgOf : AiProvider → String
  | .gemini => "Empty response from Gemini"
  | .openai => "Empty response from OpenAI"
  | .anthropic => "Empty response from Anthropic"
  | .github => "Empty response from GitHub Models"

/-- A completed configuration document. -/
def cfgDone : Config :=
  { aiProvider := some .openai, apiKey := some "k", setupComplete := some true }

/-- Environment: no `-m`, setup incomplete (config file absent). -/
def envGate : PushEnv := { messageOpt := none, config0 := .absent }

/-- Environment: no `-m`, setup complete, fresh GitHub login required. -/
def envFreshLogin : PushEnv :=
  { messageOpt := none, config0 := .valid cfgDone, ghInstalled := true,
    ghAuthenticated := false, selProvider1 := .anthropic, key1 := "newkey",
    statusStdout := "M a.ts", stagedDiff := "" }

/-- Environment: configured, changes staged, first AI call answers 401,
user declines reconfiguration. -/
def envDecline : PushEnv :=
  { messageOpt := none, config0 := .valid cfgDone, ghInstalled := true,
    ghAuthenticated := true, isRepo := true, remoteResult := some "origin",
    statusStdout := "M a.ts", stagedDiff := "diff",
    http1 := .httpError 401 "Request failed with status code 401",
    confirmReconfigure := false }

/-- Environment whose only remote is named `origin-backup`. -/
def envBackupRemote : PushEnv :=
  { config0 := .valid cfgDone, remoteResult := some "origin-backup" }

/-- A Gemini success body carrying text with surrounding whitespace. -/
def geminiOkBody : Json :=
  .obj [("candidates", .arr [.obj [("content", .obj
    [("parts", .arr [.obj [("text", .str "  feat: add login  ")]])])]])]

/-! ## Theorems -/

/-- Helper: a falsy value at the text path always produces the
empty-response error. -/
theorem textResult_falsy (emptyMsg : String) (v : Option Json)
    (h : jsFalsyOpt v = true) :
    textResult emptyMsg v = .error (.emptyResponse emptyMsg) := by
  cases v with
  | none => rfl
  | some w => cases w <;> simp_all [jsFalsyOpt, jsFalsyVal, textResult]

/-- C1: for every provider an HTTP 401 classifies as InvalidCredentials;
403 classifies as InvalidCredentials for gemini and as a generic
ProviderError for the other three; 429 classifies as RateLimited for
gemini and as a generic ProviderError for the other three. -/
theorem claim_C1 (p : AiProvider) (d k m : String) :
    errClassOf (generateCommitMessage d p k (.httpError 401 m))
        = some .invalidCredentials
    ∧ errClassOf (generateCommitMessage d p k (.httpError 403 m))
        = some (if p = .gemini then .invalidCredentials else .providerError)
    ∧ errClassOf (generateCommitMessage d p k (.httpError 429 m))
        = some (if p = .gemini then .rateLimited else .providerError) := by
  cases p <;> exact ⟨rfl, rfl, rfl⟩

/-- C4: for every provider, a successful response holding a non-empty
string at the documented text path makes `generateCommitMessage` return
exactly that string with leading and trailing whitespace removed. -/
theorem claim_C4 (p : AiProvider) (body : Json) (t d k : String)
    (hpath : pathVal p body = some (.str t)) (ht : t ≠ "") :
    generateCommitMessage d p k (.success body) = .ok (jsTrim t) := by
  cases p <;> simp only [pathVal] at hpath <;>
    simp [generateCommitMessage, generateWithGemini, generateWithOpenAI,
      generateWithAnthropic, generateWithGitHub, textResult, hpath, ht]

/-- Witness for C4: a concrete Gemini payload round-trips through the
client with its text trimmed. -/
theorem claim_C4_witness :
    generateCommitMessage "d" .gemini "key" (.success geminiOkBody)
      = .ok (jsTrim "  feat: add login  ") :=
  claim_C4 .gemini geminiOkBody "  feat: add login  " "d" "key" rfl (by decide)

/-- C5: for every provider, a successful response whose text path is
absent or holds a falsy (in particular empty) value fails with exactly
the provider's EmptyResponse error: no string is returned and no other
classification is produced. -/
theorem claim_C5 (p : AiProvider) (body : Json) (d k : String)
    (h : jsFalsyOpt (pathVal p body) = true) :
    generateCommitMessage d p k (.success body)
      = .error (.emptyResponse (emptyMsgOf p)) := by
  cases p <;> simp only [pathVal] at h <;> exact textResult_falsy _ _ h

/-- Witness for C5: an empty Gemini body yields the EmptyResponse
error. -/
theorem claim_C5_witness :
    generateCommitMessage "d" .gemini "k" (.success (.obj []))
      = .error (.emptyResponse (emptyMsgOf .gemini)) :=
  claim_C5 .gemini (.obj []) "d" "k" rfl

/-- C6: after `setApiKey(p, k)` the configuration reads back with
`setupComplete = true` and the same provider and key; after
`clearConfig()` the configuration reads back empty (from the state just
written and from any state). -/
theorem claim_C6 (p : AiProvider) (k : String) (st : FileState)
    (_hk : k ≠ "") :
    (getConfigSt (setApiKeySt p k st)).setupComplete = some true
    ∧ (getConfigSt (setApiKeySt p k st)).aiProvider = some p
    ∧ (getConfigSt (setApiKeySt p k st)).apiKey = some k
    ∧ getConfigSt (clearConfigSt (setApiKeySt p k st)).1 = {}
    ∧ getConfigSt (clearConfigSt st).1 = {} := by
  cases st <;> simp [getConfigSt, setApiKeySt, clearConfigSt]

/-- Witness for C6 at a concrete provider, key and prior state. -/
theorem claim_C6_witness :
    (getConfigSt (setApiKeySt .gemini "key" .absent)).setupComplete = some true
    ∧ (getConfigSt (setApiKeySt .gemini "key" .absent)).aiProvider
        = some .gemini
    ∧ (getConfigSt (setApiKeySt .gemini "key" .absent)).apiKey = some "key"
    ∧ getConfigSt (clearConfigSt (setApiKeySt .gemini "key" .absent)).1 = {}
    ∧ getConfigSt (clearConfigSt FileState.absent).1 = {} :=
  claim_C6 .gemini "key" .absent (by decide)

/-- C7: both the HTTPS and the SSH GitHub remote URL forms parse to
`user/repo`. -/
theorem claim_C7 :
    remoteRepoName "https://github.com/user/repo.git" = some "user/repo"
    ∧ remoteRepoName "git@github.com:user/repo.git" = some "user/repo" := by
  decide

/-- C8: `getCurrentBranch` returns the trimmed stdout when that is
non-empty (raw output "main\n" yields "main") and defaults to "main"
when the trimmed output is empty. -/
theorem claim_C8 (s : String) (h : jsTrim s ≠ "") :
    getCurrentBranch s = jsTrim s
    ∧ getCurrentBranch "main\n" = "main"
    ∧ getCurrentBranch "" = "main" := by
  refine ⟨?_, by decide, by decide⟩
  simp [getCurrentBranch, h]

/-- Witness for C8 at the raw output "main\n". -/
theorem claim_C8_witness :
    getCurrentBranch "main\n" = jsTrim "main\n"
    ∧ getCurrentBranch "main\n" = "main"
    ∧ getCurrentBranch "" = "main" :=
  claim_C8 "main\n" (by decide)

/-- Helper: `startsWithL pat s` holds exactly when `s` extends `pat`. -/
theorem startsWithL_iff (pat s : List Char) :
    startsWithL pat s = true ↔ ∃ rest, s = pat ++ rest := by
  induction pat generalizing s with
  | nil => simp [startsWithL]
  | cons p ps ih =>
    cases s with
    | nil =>
      simp [startsWithL]
    | cons c cs =>
      simp only [startsWithL, Bool.and_eq_true, beq_iff_eq, ih,
        List.cons_append]
      constructor
      · rintro ⟨rfl, rest, rfl⟩
        exact ⟨rest, rfl⟩
      · rintro ⟨rest, hr⟩
        injection hr with h1 h2
        exact ⟨h1.symm, rest, h2⟩

/-- Helper: `includesL hay needle` holds exactly when `needle` occurs
as a contiguous substring of `hay`. -/
theorem includesL_iff (hay needle : List Char) :
    includesL hay needle = true ↔
      ∃ pre post, hay = pre ++ needle ++ post := by
  induction hay with
  | nil =>
    constructor
    · intro h
      obtain ⟨rest, hr⟩ := (startsWithL_iff needle []).mp h
      exact ⟨[], rest, by simpa using hr⟩
    · rintro ⟨pre, post, hp⟩
      obtain ⟨h1, h2⟩ := List.append_eq_nil.mp hp.symm
      obtain ⟨h3, h4⟩ := List.append_eq_nil.mp h1
      subst h4
      rfl
  | cons c cs ih =>
    simp only [includesL, Bool.or_eq_true, startsWithL_iff, ih]
    constructor
    · rintro (⟨rest, hr⟩ | ⟨pre, post, hp⟩)
      · exact ⟨[], rest, by simpa using hr⟩
      · exact ⟨c :: pre, post, by simp [hp]⟩
    · rintro ⟨pre, post, hp⟩
      cases pre with
      | nil => exact Or.inl ⟨post, by simpa using hp⟩
      | cons a pre2 =>
        right
        injection hp with h1 h2
        exact ⟨pre2, post, h2⟩

/-- Helper: without an occurrence of `.git`, the first-occurrence
replacement is the identity. -/
theorem replaceFirst_not (l : List Char)
    (h : includesL l (".git".data) = false) :
    replaceFirstDotGitL l = l := by
  induction l with
  | nil => rfl
  | cons c t ih =>
    simp only [includesL, Bool.or_eq_false_iff] at h
    obtain ⟨h1, h2⟩ := h
    simp [replaceFirstDotGitL, h1, ih h2]

/-- Helper: with an occurrence of `.git`, the first-occurrence
replacement strictly shortens the list. -/
theorem replaceFirst_shorter (l : List Char)
    (h : includesL l (".git".data) = true) :
    (replaceFirstDotGitL l).length < l.length := by
  induction l with
  | nil => exact absurd h (by decide)
  | cons c t ih =>
    by_cases hs : startsWithL (".git".data) (c :: t) = true
    · have hr : replaceFirstDotGitL (c :: t) = (c :: t).drop 4 := by
        simp [replaceFirstDotGitL, hs]
      rw [hr, List.length_drop]
      exact Nat.sub_lt (by simp) (by decide)
    · rw [Bool.not_eq_true] at hs
      rw [includesL, hs] at h
      simp only [Bool.false_or] at h
      have hlt := ih h
      simp only [replaceFirstDotGitL, hs, Bool.false_eq_true, if_false,
        List.length_cons]
      omega

/-- C10: after the regex capture, `.replace('.git', '')` removes the
first occurrence of `.git` anywhere in the captured owner/repo segment,
so a segment containing `.git` internally is altered (the delete
command then targets a different name), while segments without `.git`
pass through unchanged. Concretely, remote URLs whose segment is
`user/my.gitrepo` produce the repo name `user/myrepo`. -/
theorem claim_C10 :
    remoteRepoName "https://github.com/user/my.gitrepo.git"
        = some "user/myrepo"
    ∧ remoteRepoName "https://github.com/user/my.gitrepo"
        = some "user/myrepo"
    ∧ (∀ seg : String, includesStr seg ".git" = true →
        replaceFirstDotGit seg ≠ seg)
    ∧ (∀ seg : String, includesStr seg ".git" = false →
        replaceFirstDotGit seg = seg) := by
  refine ⟨by decide, by decide, ?_, ?_⟩
  · intro seg h hEq
    have hlt := replaceFirst_shorter seg.data h
    have hlen : (replaceFirstDotGitL seg.data).length = seg.data.length := by
      have hd := congrArg (fun x : String => x.data.length) hEq
      simpa [replaceFirstDotGit] using hd
    omega
  · intro seg h
    have hr := replaceFirst_not seg.data h
    show String.mk (replaceFirstDotGitL seg.data) = seg
    rw [hr]

/-- Witness for C10: the internal-`.git` segment is altered, a plain
segment is not. -/
theorem claim_C10_witness :
    replaceFirstDotGit "user/my.gitrepo" ≠ "user/my.gitrepo"
    ∧ replaceFirstDotGit "user/repo" = "user/repo" :=
  ⟨claim_C10.2.2.1 "user/my.gitrepo" (by decide),
   claim_C10.2.2.2 "user/repo" (by decide)⟩

/-- Helper: `aiStep` only appends effects to the incoming trace, and
never a `createRepo`. -/
theorem aiStep_tr (env : PushEnv) (st : FileState) (tr : List Effect)
    (p : AiProvider) (k : String) :
    ∃ s, (aiStep env st tr p k).trace = tr ++ s
      ∧ Effect.createRepo ∉ s := by
  by_cases hd : (env.stagedDiff == "") = true
  · exact ⟨[], by simp [aiStep, hd], by simp⟩
  · rw [Bool.not_eq_true] at hd
    cases hG : generateCommitMessage env.stagedDiff p k env.http1 with
    | ok m =>
      exact ⟨[.commit m, .push],
        by simp [aiStep, hd, hG, finishCommit], by simp⟩
    | error e =>
      by_cases hc : env.confirmReconfigure = true
      · cases hG2 : generateCommitMessage env.stagedDiff env.selProviderRetry
            env.keyRetry env.http2 with
        | ok m2 =>
          exact ⟨[.setApiKey env.selProviderRetry env.keyRetry,
                  .commit m2, .push],
            by simp [aiStep, hd, hG, hc, hG2, finishCommit], by simp⟩
        | error e2 =>
          exact ⟨[.setApiKey env.selProviderRetry env.keyRetry],
            by simp [aiStep, hd, hG, hc, hG2], by simp⟩
      · rw [Bool.not_eq_true] at hc
        exact ⟨[], by simp [aiStep, hd, hG, hc], by simp⟩

/-- Helper: `afterStage` only appends effects to the incoming trace,
and never a `createRepo`. -/
theorem afterStage_tr (env : PushEnv) (st : FileState) (tr : List Effect) :
    ∃ s, (afterStage env st tr).trace = tr ++ s
      ∧ Effect.createRepo ∉ s := by
  by_cases hm : msgTruthy env.messageOpt = true
  · exact ⟨[.commit (env.messageOpt.getD ""), .push],
      by simp [afterStage, hm, finishCommit], by simp⟩
  · rw [Bool.not_eq_true] at hm
    cases hA : (getConfigSt st).aiProvider with
    | none =>
      obtain ⟨s, hs, hns⟩ := aiStep_tr env
        (setApiKeySt env.selProviderMissing env.keyMissing st)
        (tr ++ [.setApiKey env.selProviderMissing env.keyMissing])
        env.selProviderMissing env.keyMissing
      refine ⟨.setApiKey env.selProviderMissing env.keyMissing :: s, ?_,
        by simp [hns]⟩
      simp [afterStage, hm, hA, hs]
    | some pv =>
      by_cases hK : strOptTruthy (getConfigSt st).apiKey = true
      · obtain ⟨s, hs, hns⟩ := aiStep_tr env st tr pv
          ((getConfigSt st).apiKey.getD "")
        refine ⟨s, ?_, hns⟩
        simp [afterStage, hm, hA, hK, hs]
      · rw [Bool.not_eq_true] at hK
        obtain ⟨s, hs, hns⟩ := aiStep_tr env
          (setApiKeySt env.selProviderMissing env.keyMissing st)
          (tr ++ [.setApiKey env.selProviderMissing env.keyMissing])
          env.selProviderMissing env.keyMissing
        refine ⟨.setApiKey env.selProviderMissing env.keyMissing :: s, ?_,
          by simp [hns]⟩
        simp [afterStage, hm, hA, hK, hs]

/-- Helper: the changes check and staging only append effects, never a
`createRepo`. -/
theorem changesStep_tr (env : PushEnv) (st : FileState) (tr : List Effect) :
    ∃ s, (changesStep env st tr).trace = tr ++ s
      ∧ Effect.createRepo ∉ s := by
  by_cases hch : hasChangesOf env.statusStdout = true
  · obtain ⟨s, hs, hns⟩ := afterStage_tr env st (tr ++ [.stageAll])
    refine ⟨.stageAll :: s, ?_, by simp [hns]⟩
    simp [changesStep, hch, hs]
  · rw [Bool.not_eq_true] at hch
    exact ⟨[], by simp [changesStep, hch], by simp⟩

/-- Helper: the remote check appends a `createRepo` only when
`hasRemote` is false. -/
theorem remoteStep_tr (env : PushEnv) (st : FileState) (tr : List Effect) :
    ∃ s, (remoteStep env st tr).trace = tr ++ s
      ∧ (hasRemoteOf env.remoteResult = true → Effect.createRepo ∉ s) := by
  by_cases hr : hasRemoteOf env.remoteResult = true
  · obtain ⟨s, hs, hns⟩ := changesStep_tr env st tr
    exact ⟨s, by simp [remoteStep, hr, hs], fun _ => hns⟩
  · rw [Bool.not_eq_true] at hr
    obtain ⟨s, hs, hns⟩ := changesStep_tr env st (tr ++ [.createRepo])
    refine ⟨.createRepo :: s, ?_, ?_⟩
    · simp [remoteStep, hr, hs]
    · intro hcontra
      rw [hr] at hcontra
      cases hcontra

/-- Helper: the repository check appends at most an `initRepo` before
the remote check. -/
theorem repoStep_tr (env : PushEnv) (st : FileState) (tr : List Effect) :
    ∃ s, (repoStep env st tr).trace = tr ++ s
      ∧ (hasRemoteOf env.remoteResult = true → Effect.createRepo ∉ s) := by
  by_cases hrepo : env.isRepo = true
  · obtain ⟨s, hs, hns⟩ := remoteStep_tr env st tr
    exact ⟨s, by simp [repoStep, hrepo, hs], hns⟩
  · rw [Bool.not_eq_true] at hrepo
    obtain ⟨s, hs, hns⟩ := remoteStep_tr env st (tr ++ [.initRepo])
    refine ⟨.initRepo :: s, by simp [repoStep, hrepo, hs], ?_⟩
    intro hr
    simp [List.mem_cons, hns hr]

/-- Helper: the step-3 configuration check appends at most a
`setApiKey` before the repository check. -/
theorem configStep_tr (env : PushEnv) (st : FileState) (tr : List Effect)
    (b : Bool) :
    ∃ s, (configStep env st tr b).trace = tr ++ s
      ∧ (hasRemoteOf env.remoteResult = true → Effect.createRepo ∉ s) := by
  by_cases hm : msgTruthy env.messageOpt = true
  · obtain ⟨s, hs, hns⟩ := repoStep_tr env st tr
    exact ⟨s, by simp [configStep, hm, hs], hns⟩
  · rw [Bool.not_eq_true] at hm
    by_cases hre : (!isSetupCompleteB st || b) = true
    · obtain ⟨s, hs, hns⟩ := repoStep_tr env
        (setApiKeySt env.selProvider1 env.key1 st)
        (tr ++ [.setApiKey env.selProvider1 env.key1])
      refine ⟨.setApiKey env.selProvider1 env.key1 :: s, ?_, ?_⟩
      · simp [configStep, hm, hre, hs]
      · intro hr
        simp [List.mem_cons, hns hr]
    · rw [Bool.not_eq_true] at hre
      obtain ⟨s, hs, hns⟩ := repoStep_tr env st tr
      exact ⟨s, by simp [configStep, hm, hre, hs], hns⟩

/-- Helper: when `hasRemote` reads true, the push action never creates
a GitHub repository. -/
theorem pushAction_skips_createRepo (env : PushEnv)
    (hr : hasRemoteOf env.remoteResult = true) :
    Effect.createRepo ∉ (pushAction env).trace := by
  by_cases h1 : (!isSetupCompleteB env.config0
      && !msgTruthy env.messageOpt) = true
  · simp [pushAction, h1]
  · rw [Bool.not_eq_true] at h1
    by_cases h2 : env.ghInstalled = true
    · by_cases h3 : env.ghAuthenticated = true
      · obtain ⟨s, hs, hns⟩ := configStep_tr env env.config0 [] false
        simp [pushAction, h1, h2, h3, hs, hns hr]
      · rw [Bool.not_eq_true] at h3
        obtain ⟨s, hs, hns⟩ := configStep_tr env env.config0 [.loginGh] true
        simp [pushAction, h1, h2, h3, hs, List.mem_cons, hns hr]
    · rw [Bool.not_eq_true] at h2
      by_cases h4 : env.confirmInstall = true <;>
        simp [pushAction, h1, h2, h4]

/-- C9: `hasRemote` is true exactly when the `git remote` stdout
contains the substring `origin` anywhere, so remote lists such as
`origin-backup` or `my-origin` count as having a remote, and the push
flow then performs no `createRepo`. -/
theorem claim_C9 :
    (∀ s : String, hasRemoteOf (some s) = true ↔
        ∃ pre post, s.data = pre ++ "origin".data ++ post)
    ∧ hasRemoteOf (some "origin-backup") = true
    ∧ hasRemoteOf (some "my-origin") = true
    ∧ (∀ env : PushEnv, hasRemoteOf env.remoteResult = true →
        Effect.createRepo ∉ (pushAction env).trace) :=
  ⟨fun s => includesL_iff s.data "origin".data, by decide, by decide,
   fun env hr => pushAction_skips_createRepo env hr⟩

/-- Witness for C9: with a sole remote named `origin-backup`, the push
flow creates no repository. -/
theorem claim_C9_witness :
    hasRemoteOf (some "origin-backup") = true
    ∧ Effect.createRepo ∉ (pushAction envBackupRemote).trace :=
  ⟨claim_C9.2.1, claim_C9.2.2.2 envBackupRemote (by decide)⟩

/-- Counterexample for C2 as stated: with no `-m` and setup incomplete
(absent config), the push command exits 1 immediately, performing no
provider reselection, no persistence, and no further flow. -/
theorem claim_C2_counterexample :
    (pushAction envGate).exitCode = 1
    ∧ (pushAction envGate).trace = [] := by
  decide

/-- C2 (amended): with no literal message, an incomplete setup makes
the push command abort immediately with exit code 1 and no effects
(the setup gate), while a fresh GitHub login with setup previously
complete forces reselection of provider and key at step 3, persists it
immediately via `setApiKey`, and continues the push flow (the result is
exactly the continuation from the repository check with the new
configuration). -/
theorem claim_C2 (env : PushEnv) (hm : msgTruthy env.messageOpt = false) :
    (isSetupCompleteB env.config0 = false →
      pushAction env = ⟨1, [], env.config0⟩)
    ∧ (isSetupCompleteB env.config0 = true → env.ghInstalled = true →
        env.ghAuthenticated = false →
        pushAction env
            = repoStep env (setApiKeySt env.selProvider1 env.key1 env.config0)
                [.loginGh, .setApiKey env.selProvider1 env.key1]
        ∧ Effect.setApiKey env.selProvider1 env.key1
            ∈ (pushAction env).trace) := by
  constructor
  · intro hs
    simp [pushAction, hs, hm]
  · intro hs hgh hauth
    have heq : pushAction env
        = repoStep env (setApiKeySt env.selProvider1 env.key1 env.config0)
            [.loginGh, .setApiKey env.selProvider1 env.key1] := by
      simp [pushAction, configStep, hs, hm, hgh, hauth]
    refine ⟨heq, ?_⟩
    rw [heq]
    obtain ⟨s, hs2, _⟩ := repoStep_tr env
      (setApiKeySt env.selProvider1 env.key1 env.config0)
      [.loginGh, .setApiKey env.selProvider1 env.key1]
    rw [hs2]
    simp

/-- Witness for C2 (amended), fresh-login side, at a concrete
environment. -/
theorem claim_C2_witness :
    pushAction envFreshLogin
        = repoStep envFreshLogin
            (setApiKeySt AiProvider.anthropic "newkey" (.valid cfgDone))
            [.loginGh, .setApiKey AiProvider.anthropic "newkey"]
    ∧ Effect.setApiKey AiProvider.anthropic "newkey"
        ∈ (pushAction envFreshLogin).trace :=
  (claim_C2 envFreshLogin rfl).2 rfl rfl rfl

/-- C3: in the push flow without a literal message, when the AI call
fails and the user declines the offered reconfiguration, the command
exits with code 1, no commit (and no push) is performed, and the
staged index stays staged: `stageAll` is in the performed-effect trace
and nothing after it touches the index. -/
theorem claim_C3 (env : PushEnv) (p : AiProvider) (k : String)
    (hm : msgTruthy env.messageOpt = false)
    (hsetup : isSetupCompleteB env.config0 = true)
    (hgh : env.ghInstalled = true)
    (hauth : env.ghAuthenticated = true)
    (hch : hasChangesOf env.statusStdout = true)
    (hp : (getConfigSt env.config0).aiProvider = some p)
    (hk : (getConfigSt env.config0).apiKey = some k)
    (hdiff : (env.stagedDiff == "") = false)
    (hfail : ∃ e, generateCommitMessage env.stagedDiff p k env.http1
        = .error e)
    (hdecl : env.confirmReconfigure = false) :
    (pushAction env).exitCode = 1
    ∧ Effect.stageAll ∈ (pushAction env).trace
    ∧ (∀ m, Effect.commit m ∉ (pushAction env).trace)
    ∧ Effect.push ∉ (pushAction env).trace := by
  obtain ⟨e, he⟩ := hfail
  have hkey : strOptTruthy (getConfigSt env.config0).apiKey = true := by
    have h2 := hsetup
    unfold isSetupCompleteB at h2
    simp only [Bool.and_eq_true] at h2
    exact h2.1.2
  rw [hk] at hkey
  cases hrepo : env.isRepo <;>
    cases hrem : hasRemoteOf env.remoteResult <;>
    simp [pushAction, configStep, repoStep, remoteStep, changesStep,
      afterStage, aiStep, hm, hsetup, hgh, hauth, hch, hp, hk, hkey,
      hdiff, he, hdecl, hrepo, hrem]

/-- Witness for C3 at a concrete environment: OpenAI configured, the
call answers 401, the user declines. -/
theorem claim_C3_witness :
    (pushAction envDecline).exitCode = 1
    ∧ Effect.stageAll ∈ (pushAction envDecline).trace
    ∧ (∀ m, Effect.commit m ∉ (pushAction envDecline).trace)
    ∧ Effect.push ∉ (pushAction envDecline).trace :=
  claim_C3 envDecline .openai "k" rfl rfl rfl rfl (by decide) rfl rfl
    (by decide) ⟨_, rfl⟩ rfl
